import Mathlib

/-!
# Verification of the connection I/O core (src/connection.c)

This file gives a shallow embedding of the per-connection I/O state machine
of `src/connection.c` (functions `conn_fd_handler` and `conn_set_polling`)
and proves the specification claims about it.

The connection's flag word is a bitset in C; the `CO_FL_*` bit constants are
declared in headers that are not part of this repository's sources, so the
flag word is modelled as a structure with one named Boolean field per flag
bit that `connection.c` reads or writes, plus an `other` field standing for
all remaining bits.  External collaborators (handshake sub-handlers,
application callbacks, the session-completion shim, the connect probe, the
notification hook and the polling committer) are declared in headers only,
so they are modelled as an environment of oracle functions on the flag
word; each invocation is recorded in a trace together with the flag word
passed at the call.
-/

/-- Names of the external calls that `connection.c` can issue.  The first
group are the collaborators invoked by `conn_fd_handler`; the second group
are the event-facility primitives issued by `conn_set_polling`. -/
inductive CallName where
  | recvProxy
  | siSendProxy
  | sockStopBoth
  | sessionComplete
  | appRecv
  | appSend
  | connectProbe
  | notifySi
  | condUpdatePolling
  | fdPollRecv
  | fdWantRecv
  | fdStopRecv
  | fdPollSend
  | fdWantSend
  | fdStopSend
deriving DecidableEq

/-- The connection flag word `conn->flags`.  One Boolean per `CO_FL_*` bit
used by `connection.c`; `other` stands for every remaining bit of the word.
Modelled from the spec for the bit layout (the `CO_FL_*` constants live in
`proto/connection.h`, which is not under the repository sources): each flag
is a distinct bit, and the composite `CO_FL_HANDSHAKE` is the union of the
pending handshake-kind bits (see `hsk`). -/
structure ConnFlags where
  error : Bool
  accept_proxy : Bool
  si_send_proxy : Bool
  poll_sock : Bool
  init_sess : Bool
  notify_si : Bool
  wait_l4_conn : Bool
  wait_l6_conn : Bool
  connected : Bool
  curr_rd_ena : Bool
  curr_rd_pol : Bool
  curr_wr_ena : Bool
  curr_wr_pol : Bool
  other : Nat
deriving DecidableEq

/-- The flag word with every modelled bit clear. -/
def noFlags : ConnFlags :=
  ⟨false, false, false, false, false, false, false, false, false,
   false, false, false, false, 0⟩

/-- The event slot `fdtab[fd].ev`.  One Boolean per `FD_POLL_*` bit used by
`conn_fd_handler`; `other` stands for every remaining bit of the word. -/
structure EvSlot where
  poll_in : Bool
  poll_out : Bool
  poll_hup : Bool
  poll_err : Bool
  other : Nat
deriving DecidableEq

/-- The event slot with the four modelled bits clear. -/
def noEv : EvSlot := ⟨false, false, false, false, 0⟩

/-- Effect of line 111 of `connection.c`:
`fdtab[fd].ev &= ~(FD_POLL_IN | FD_POLL_OUT | FD_POLL_HUP | FD_POLL_ERR)`. -/
def clearEv (ev : EvSlot) : EvSlot :=
  { ev with poll_in := false, poll_out := false, poll_hup := false, poll_err := false }

/-- Embedding of `conn_set_polling` (`connection.c` lines 123-147).  The
input `c` is the connection (its flag word); `new` carries the requested
bits (only its four `CO_FL_CURR_*` bits are consulted, as in the C code).
The result is the updated flag word together with the ordered list of
event-facility primitives issued.  Each `if / else if` chain of the source
is translated branch for branch:
the read branch fires `fd_poll_recv` when the old `(RD_ENA, RD_POL)` pair
is not `11` and the new pair is `11`, else `fd_want_recv` when `RD_ENA`
rises, else `fd_stop_recv` when `RD_ENA` falls; the write branch is
symmetric; finally the four current-interest bits are overwritten from
`new` (lines 145-146). -/
def conn_set_polling (c : ConnFlags) (new : ConnFlags) : ConnFlags × List CallName :=
  let old := c
  let rd : List CallName :=
    if !(old.curr_rd_ena && old.curr_rd_pol) && (new.curr_rd_ena && new.curr_rd_pol) then
      [CallName.fdPollRecv]
    else if !old.curr_rd_ena && new.curr_rd_ena then
      [CallName.fdWantRecv]
    else if old.curr_rd_ena && !new.curr_rd_ena then
      [CallName.fdStopRecv]
    else []
  let wr : List CallName :=
    if !(old.curr_wr_ena && old.curr_wr_pol) && (new.curr_wr_ena && new.curr_wr_pol) then
      [CallName.fdPollSend]
    else if !old.curr_wr_ena && new.curr_wr_ena then
      [CallName.fdWantSend]
    else if old.curr_wr_ena && !new.curr_wr_ena then
      [CallName.fdStopSend]
    else []
  ({ c with curr_rd_ena := new.curr_rd_ena, curr_rd_pol := new.curr_rd_pol,
            curr_wr_ena := new.curr_wr_ena, curr_wr_pol := new.curr_wr_pol },
   rd ++ wr)

/-- Spec-side description of the read-direction calls, written from the
claim: `poll_recv` exactly when the `(RD_ENA, RD_POL)` pair transitions to
`11` from any other value; `want_recv` exactly when `RD_ENA` rises without
the pair becoming `11`; `stop_recv` exactly when `RD_ENA` falls; nothing in
all other cases.  The three guards are mutually exclusive, so the
concatenation holds at most one call. -/
def specRecvCalls (old new : ConnFlags) : List CallName :=
  (if (new.curr_rd_ena && new.curr_rd_pol) && !(old.curr_rd_ena && old.curr_rd_pol) then
    [CallName.fdPollRecv] else [])
  ++ (if (!old.curr_rd_ena && new.curr_rd_ena)
         && !((new.curr_rd_ena && new.curr_rd_pol) && !(old.curr_rd_ena && old.curr_rd_pol)) then
    [CallName.fdWantRecv] else [])
  ++ (if old.curr_rd_ena && !new.curr_rd_ena then [CallName.fdStopRecv] else [])

/-- Spec-side description of the send-direction calls, symmetric to
`specRecvCalls` on the `(WR_ENA, WR_POL)` pair. -/
def specSendCalls (old new : ConnFlags) : List CallName :=
  (if (new.curr_wr_ena && new.curr_wr_pol) && !(old.curr_wr_ena && old.curr_wr_pol) then
    [CallName.fdPollSend] else [])
  ++ (if (!old.curr_wr_ena && new.curr_wr_ena)
         && !((new.curr_wr_ena && new.curr_wr_pol) && !(old.curr_wr_ena && old.curr_wr_pol)) then
    [CallName.fdWantSend] else [])
  ++ (if old.curr_wr_ena && !new.curr_wr_ena then [CallName.fdStopSend] else [])

/-- C1: for every current interest state and every requested `new` bits,
`conn_set_polling` issues per direction exactly one of `poll_recv` (pair
transitions to `11` from any other value), `want_recv` (`RD_ENA` rises
without the pair becoming `11`), `stop_recv` (`RD_ENA` falls), or nothing,
in that recv-then-send order, and symmetrically for the send direction;
each direction contributes at most one call. -/
theorem conn_set_polling_calls_characterized (c new : ConnFlags) :
    (conn_set_polling c new).2 = specRecvCalls c new ++ specSendCalls c new
    ∧ (specRecvCalls c new).length ≤ 1 ∧ (specSendCalls c new).length ≤ 1 := by
  obtain ⟨e, ap, sp, ps, is', ns, w4, w6, co, rre, rrp, wre, wrp, o⟩ := c
  obtain ⟨e2, ap2, sp2, ps2, is2, ns2, w42, w62, co2, nre, nrp, nwe, nwp, o2⟩ := new
  refine ⟨?_, ?_, ?_⟩ <;>
    cases rre <;> cases rrp <;> cases nre <;> cases nrp <;>
    cases wre <;> cases wrp <;> cases nwe <;> cases nwp <;>
    first
    | rfl
    | exact Nat.le_of_eq rfl
    | exact Nat.le_succ_of_le (Nat.le_of_eq rfl)

/-- C6: after `conn_set_polling c new` returns, the four current-interest
bits of the connection equal exactly the corresponding bits of `new`, and
every other bit of the flag word (every other field of the model, `other`
included) is unchanged. -/
theorem conn_set_polling_commits_curr_bits_only (c new : ConnFlags) :
    (conn_set_polling c new).1.curr_rd_ena = new.curr_rd_ena
    ∧ (conn_set_polling c new).1.curr_rd_pol = new.curr_rd_pol
    ∧ (conn_set_polling c new).1.curr_wr_ena = new.curr_wr_ena
    ∧ (conn_set_polling c new).1.curr_wr_pol = new.curr_wr_pol
    ∧ (conn_set_polling c new).1.error = c.error
    ∧ (conn_set_polling c new).1.accept_proxy = c.accept_proxy
    ∧ (conn_set_polling c new).1.si_send_proxy = c.si_send_proxy
    ∧ (conn_set_polling c new).1.poll_sock = c.poll_sock
    ∧ (conn_set_polling c new).1.init_sess = c.init_sess
    ∧ (conn_set_polling c new).1.notify_si = c.notify_si
    ∧ (conn_set_polling c new).1.wait_l4_conn = c.wait_l4_conn
    ∧ (conn_set_polling c new).1.wait_l6_conn = c.wait_l6_conn
    ∧ (conn_set_polling c new).1.connected = c.connected
    ∧ (conn_set_polling c new).1.other = c.other :=
  ⟨rfl, rfl, rfl, rfl, rfl, rfl, rfl, rfl, rfl, rfl, rfl, rfl, rfl, rfl⟩

/-- C7: calling the reconciler with `new` bits whose current-interest part
equals the already-committed current-interest bits issues zero
event-facility calls; consequently, of two back-to-back
`conn_set_polling c x` calls the second issues no calls and leaves the
flags of the first call's result unchanged, so the pair issues the same
calls as the first call alone. -/
theorem conn_set_polling_idempotent (c x : ConnFlags) :
    (c.curr_rd_ena = x.curr_rd_ena → c.curr_rd_pol = x.curr_rd_pol →
     c.curr_wr_ena = x.curr_wr_ena → c.curr_wr_pol = x.curr_wr_pol →
     (conn_set_polling c x).2 = [])
    ∧ (conn_set_polling (conn_set_polling c x).1 x).2 = []
    ∧ (conn_set_polling (conn_set_polling c x).1 x).1 = (conn_set_polling c x).1 := by
  obtain ⟨e, ap, sp, ps, is', ns, w4, w6, co, rre, rrp, wre, wrp, o⟩ := c
  obtain ⟨e2, ap2, sp2, ps2, is2, ns2, w42, w62, co2, nre, nrp, nwe, nwp, o2⟩ := x
  refine ⟨?_, ?_, ?_⟩
  · intro h1 h2 h3 h4
    simp only at h1 h2 h3 h4
    subst h1; subst h2; subst h3; subst h4
    cases rre <;> cases rrp <;> cases wre <;> cases wrp <;> rfl
  · cases nre <;> cases nrp <;> cases nwe <;> cases nwp <;> rfl
  · cases nre <;> cases nrp <;> cases nwe <;> cases nwp <;> rfl

/-- Witness for `conn_set_polling_idempotent`: at the concrete state
`noFlags` with request `noFlags`, the hypotheses of the first conjunct hold
and the reconciler issues no calls. -/
theorem conn_set_polling_idempotent_witness :
    (conn_set_polling noFlags noFlags).2 = [] :=
  (conn_set_polling_idempotent noFlags noFlags).1 rfl rfl rfl rfl

/-- Environment of external collaborators of `conn_fd_handler`.  Every one
of them is declared in a header outside the repository sources, so each is
an oracle on the connection's flag word.  Oracles that report success or
failure also return a `Bool` (`conn_recv_proxy`, `conn_si_send_proxy`,
`tcp_connect_probe`) or an `Int` (`conn_session_complete`, negative means
the connection was destroyed, per the comment at lines 55-58). -/
structure Env where
  recv_proxy : ConnFlags → ConnFlags × Bool
  si_send_proxy : ConnFlags → ConnFlags × Bool
  sock_stop_both : ConnFlags → ConnFlags
  session_complete : ConnFlags → ConnFlags × Int
  app_recv : ConnFlags → ConnFlags
  app_send : ConnFlags → ConnFlags
  connect_probe : ConnFlags → ConnFlags × Bool
  notify_si : ConnFlags → ConnFlags
  cond_update_polling : ConnFlags → ConnFlags

/-- Composite `CO_FL_HANDSHAKE` test.  Modelled from the spec: the
composite bit is the union of the pending handshake-kind bits
(`CO_FL_ACCEPT_PROXY`, `CO_FL_SI_SEND_PROXY`), so `flags & CO_FL_HANDSHAKE`
is nonzero exactly when one of the kind bits is set. -/
def hsk (f : ConnFlags) : Bool :=
  f.accept_proxy || f.si_send_proxy

/-- Test of line 63: `fdtab[fd].ev & (FD_POLL_IN | FD_POLL_HUP | FD_POLL_ERR)`. -/
def recvCond (ev : EvSlot) : Bool :=
  ev.poll_in || ev.poll_hup || ev.poll_err

/-- Test of line 75: `fdtab[fd].ev & (FD_POLL_OUT | FD_POLL_ERR)`. -/
def sendCond (ev : EvSlot) : Bool :=
  ev.poll_out || ev.poll_err

/-- A traced external call: the call name together with the flag word the
connection held when the call was issued. -/
abbrev TraceEntry := CallName × ConnFlags

/-- Outcome of the handshake loop (lines 38-49): either the `while`
condition became false and control fell through to line 52 (`fell`), or a
`goto leave` was taken out of the loop (`leave`).  Both carry the flag word
and the call trace at that point. -/
inductive HsOut where
  | fell (f : ConnFlags) (tr : List TraceEntry)
  | leave (f : ConnFlags) (tr : List TraceEntry)
deriving DecidableEq

/-- Flag word carried by a handshake-loop outcome. -/
def HsOut.flagsOf : HsOut → ConnFlags
  | .fell f _ => f
  | .leave f _ => f

/-- Trace carried by a handshake-loop outcome. -/
def HsOut.trOf : HsOut → List TraceEntry
  | .fell _ tr => tr
  | .leave _ tr => tr

/-- The `CO_FL_SI_SEND_PROXY` half of the loop body (lines 46-48). -/
def hsIterSend (env : Env) (f : ConnFlags) (tr : List TraceEntry) :
    HsOut ⊕ (ConnFlags × List TraceEntry) :=
  if f.si_send_proxy then
    match env.si_send_proxy f with
    | (f1, false) => Sum.inl (.leave f1 (tr ++ [(CallName.siSendProxy, f)]))
    | (f1, true) => Sum.inr (f1, tr ++ [(CallName.siSendProxy, f)])
  else Sum.inr (f, tr)

/-- One pass of the handshake loop of `connection.c`, lines 38-48: the
`while` condition test (its failure falls through to line 52), the
`CO_FL_ERROR` test taking `goto leave`, the `CO_FL_ACCEPT_PROXY` test with
the call to `conn_recv_proxy` whose false return takes `goto leave`, and
the `CO_FL_SI_SEND_PROXY` test — on the flags as updated by the first call
— with the call to `conn_si_send_proxy` whose false return takes
`goto leave`.  `Sum.inl` is an exit from the loop, `Sum.inr` means the
body completed and control returns to the `while` test. -/
def hsIter (env : Env) (f : ConnFlags) (tr : List TraceEntry) :
    HsOut ⊕ (ConnFlags × List TraceEntry) :=
  if !(hsk f) then Sum.inl (.fell f tr)
  else if f.error then Sum.inl (.leave f tr)
  else if f.accept_proxy then
    match env.recv_proxy f with
    | (f1, false) => Sum.inl (.leave f1 (tr ++ [(CallName.recvProxy, f)]))
    | (f1, true) => hsIterSend env f1 (tr ++ [(CallName.recvProxy, f)])
  else hsIterSend env f tr

/-- Embedding of the handshake loop, lines 38-49 of `connection.c`:
iterate `hsIter` until it exits.  The C loop has no bound, so the model
takes fuel and returns `none` when the fuel runs out before the loop
exits. -/
def handshakeLoop (env : Env) : Nat → ConnFlags → List TraceEntry → Option HsOut
  | 0, _, _ => none
  | fuel + 1, f, tr =>
    match hsIter env f tr with
    | Sum.inl out => some out
    | Sum.inr (f2, tr2) => handshakeLoop env fuel f2 tr2

/-- Exit taken by the data phase (lines 63-93): `toLeave` for a
`goto leave`, `reHandshake` for a `goto process_handshake`, `fallThrough`
for falling into the `leave` label at line 95. -/
inductive DPExit where
  | toLeave
  | reHandshake
  | fallThrough
deriving DecidableEq

/-- Embedding of the data phase, lines 63-93 of `connection.c`: call
`app_cb->recv` when line 63's event test holds; `goto leave` when
`CO_FL_ERROR` is then set; `goto process_handshake` when `CO_FL_HANDSHAKE`
is then set; call `app_cb->send` when line 75's event test holds; the same
two checks again; finally, when `CO_FL_WAIT_L4_CONN` is set, call
`tcp_connect_probe` and `goto leave` when it returns false.  Returns the
flag word, the calls issued (with the flags at each call), and the exit
taken. -/
def dataPhase (env : Env) (f : ConnFlags) (ev : EvSlot) :
    ConnFlags × List TraceEntry × DPExit :=
  let f1 := if recvCond ev then env.app_recv f else f
  let t1 : List TraceEntry := if recvCond ev then [(CallName.appRecv, f)] else []
  if f1.error then (f1, t1, .toLeave)
  else if hsk f1 then (f1, t1, .reHandshake)
  else
    let f2 := if sendCond ev then env.app_send f1 else f1
    let t2 := t1 ++ (if sendCond ev then [(CallName.appSend, f1)] else [])
    if f2.error then (f2, t2, .toLeave)
    else if hsk f2 then (f2, t2, .reHandshake)
    else if f2.wait_l4_conn then
      let p := env.connect_probe f2
      (p.1, t2 ++ [(CallName.connectProbe, f2)], if p.2 then .fallThrough else .toLeave)
    else (f2, t2, .fallThrough)

/-- Result of one `conn_fd_handler` invocation: `conn` is the connection's
flag word afterwards, or `none` when there was no owner or the connection
was destroyed by `conn_session_complete`; `ev` is the descriptor's event
slot afterwards; `trace` lists the external calls issued in order; `ret`
is the handler's return value. -/
structure HResult where
  conn : Option ConnFlags
  ev : EvSlot
  trace : List TraceEntry
  ret : Int
deriving DecidableEq

/-- Flags after the notification step of the `leave` block (lines
103-104): `conn_notify_si` runs exactly when `CO_FL_NOTIFY_SI` is set. -/
def afterNotify (env : Env) (f : ConnFlags) : ConnFlags :=
  if f.notify_si then env.notify_si f else f

/-- Lines 106-108 of `connection.c`: after the notification step, set
`CO_FL_CONNECTED` when none of the two wait bits nor `CO_FL_CONNECTED` is
set. -/
def leaveConnectedStep (env : Env) (f : ConnFlags) : ConnFlags :=
  if !((afterNotify env f).wait_l4_conn || (afterNotify env f).wait_l6_conn
       || (afterNotify env f).connected) then
    { afterNotify env f with connected := true }
  else afterNotify env f

/-- Embedding of the `leave` block, lines 95-115 of `connection.c`.  When
`CO_FL_ERROR` and `CO_FL_INIT_SESS` are both set: re-or `CO_FL_ERROR`
(line 98), call `conn_session_complete` (destroying the connection when it
returns a negative value) and return 0, leaving the event slot untouched.
Otherwise: call `conn_notify_si` when `CO_FL_NOTIFY_SI` is set, run the
established-edge step, clear the four event bits, and call
`conn_cond_update_polling`. -/
def leavePhase (env : Env) (f : ConnFlags) (ev : EvSlot) (tr : List TraceEntry) : HResult :=
  if f.error && f.init_sess then
    ⟨if (env.session_complete { f with error := true }).2 < 0 then none
     else some (env.session_complete { f with error := true }).1, ev,
     tr ++ [(CallName.sessionComplete, { f with error := true })], 0⟩
  else
    ⟨some (env.cond_update_polling (leaveConnectedStep env f)), clearEv ev,
     (tr ++ (if f.notify_si then [(CallName.notifySi, f)] else []))
       ++ [(CallName.condUpdatePolling, leaveConnectedStep env f)], 0⟩

/-- Lines 52-53 of `connection.c`: call `__conn_sock_stop_both` when
`CO_FL_POLL_SOCK` is clear. -/
def afterSock (env : Env) (f : ConnFlags) (tr : List TraceEntry) :
    ConnFlags × List TraceEntry :=
  if !f.poll_sock then (env.sock_stop_both f, tr ++ [(CallName.sockStopBoth, f)])
  else (f, tr)

/-- Lines 59-61 of `connection.c`: when `CO_FL_INIT_SESS` is set, call
`conn_session_complete`; a negative return means the connection was
destroyed, so the handler returns 0 at once (`Sum.inr`, event slot
untouched); otherwise execution continues with the updated flags
(`Sum.inl`). -/
def afterSess (env : Env) (f : ConnFlags) (tr : List TraceEntry) (ev : EvSlot) :
    (ConnFlags × List TraceEntry) ⊕ HResult :=
  if f.init_sess then
    if (env.session_complete f).2 < 0 then
      Sum.inr ⟨none, ev, tr ++ [(CallName.sessionComplete, f)], 0⟩
    else Sum.inl ((env.session_complete f).1, tr ++ [(CallName.sessionComplete, f)])
  else Sum.inl (f, tr)

/-- Embedding of one pass of `conn_fd_handler`'s body starting at the
`process_handshake` label (line 31): the handshake loop; then lines 52-53
(`afterSock`); then lines 59-61 (`afterSess`); then the data phase, whose
`reHandshake` exit loops back to `process_handshake` (consuming fuel) and
whose other exits reach the `leave` block. -/
def cycle (env : Env) : Nat → ConnFlags → EvSlot → List TraceEntry → Option HResult
  | 0, _, _, _ => none
  | fuel + 1, f, ev, tr =>
    match handshakeLoop env (fuel + 1) f tr with
    | none => none
    | some (.leave f1 tr1) => some (leavePhase env f1 ev tr1)
    | some (.fell f1 tr1) =>
      let s2 := afterSock env f1 tr1
      match afterSess env s2.1 s2.2 ev with
      | Sum.inr r => some r
      | Sum.inl (f3, tr3) =>
        let d := dataPhase env f3 ev
        match d.2.2 with
        | .reHandshake => cycle env fuel d.1 ev (tr3 ++ d.2.1)
        | _ => some (leavePhase env d.1 ev (tr3 ++ d.2.1))

/-- Embedding of `conn_fd_handler` (lines 24-116): resolve the owner from
the descriptor; when it is null return 0 at once with no calls and the
event slot untouched (lines 26-29); otherwise run the cycle starting at
`process_handshake`. -/
def conn_fd_handler (env : Env) (fuel : Nat) (owner : Option ConnFlags)
    (ev : EvSlot) : Option HResult :=
  match owner with
  | none => some ⟨none, ev, [], 0⟩
  | some f => cycle env fuel f ev []

/-- A concrete well-behaved environment for witnesses: each sub-handler
succeeds and clears its bit, the session shim succeeds and clears
`CO_FL_INIT_SESS`, the connect probe succeeds and clears
`CO_FL_WAIT_L4_CONN`, and the remaining hooks change nothing. -/
def idEnv : Env :=
  ⟨fun f => ({ f with accept_proxy := false }, true),
   fun f => ({ f with si_send_proxy := false }, true),
   fun f => f,
   fun f => ({ f with init_sess := false }, 0),
   fun f => f,
   fun f => f,
   fun f => ({ f with wait_l4_conn := false }, true),
   fun f => f,
   fun f => f⟩

/-- A concrete environment in which the PROXY-header parser latches
`CO_FL_ERROR` and reports not-done, and the session shim succeeds; the
remaining hooks change nothing. -/
def abortEnv : Env :=
  ⟨fun f => ({ f with error := true }, false),
   fun f => (f, true),
   fun f => f,
   fun f => ({ f with init_sess := false }, 0),
   fun f => f,
   fun f => f,
   fun f => (f, true),
   fun f => f,
   fun f => f⟩

/-- The data phase never issues the polling-commit call. -/
lemma dataPhase_no_condUpdate (env : Env) (f : ConnFlags) (ev : EvSlot) :
    CallName.condUpdatePolling ∉ (dataPhase env f ev).2.1.map Prod.fst := by
  unfold dataPhase
  by_cases hr : recvCond ev = true <;>
    by_cases hs : sendCond ev = true <;>
      simp only [hr, hs, if_true, if_false, Bool.false_eq_true, ite_true, ite_false] <;>
      repeat' split
  all_goals simp

/-- Unfolding equation for `hsIterSend` with the oracle pair projected. -/
lemma hsIterSend_eq (env : Env) (f : ConnFlags) (tr : List TraceEntry) :
    hsIterSend env f tr =
      if f.si_send_proxy then
        if (env.si_send_proxy f).2 then
          Sum.inr ((env.si_send_proxy f).1, tr ++ [(CallName.siSendProxy, f)])
        else Sum.inl (.leave (env.si_send_proxy f).1 (tr ++ [(CallName.siSendProxy, f)]))
      else Sum.inr (f, tr) := by
  unfold hsIterSend
  rcases hp : env.si_send_proxy f with ⟨f1, b⟩
  cases b <;> simp [hp]

/-- Unfolding equation for `hsIter` with the oracle pair projected. -/
lemma hsIter_eq (env : Env) (f : ConnFlags) (tr : List TraceEntry) :
    hsIter env f tr =
      if !(hsk f) then Sum.inl (.fell f tr)
      else if f.error then Sum.inl (.leave f tr)
      else if f.accept_proxy then
        if (env.recv_proxy f).2 then
          hsIterSend env (env.recv_proxy f).1 (tr ++ [(CallName.recvProxy, f)])
        else Sum.inl (.leave (env.recv_proxy f).1 (tr ++ [(CallName.recvProxy, f)]))
      else hsIterSend env f tr := by
  unfold hsIter
  rcases hp : env.recv_proxy f with ⟨f1, b⟩
  cases b <;> simp [hp]

/-- Names of the calls a handshake-loop iteration can append. -/
def hsName (c : CallName) : Prop :=
  c = CallName.recvProxy ∨ c = CallName.siSendProxy

/-- A loop-body pass only appends sub-handler entries to the trace. -/
lemma hsIter_ext (env : Env) (f : ConnFlags) (tr : List TraceEntry) :
    (∀ out, hsIter env f tr = Sum.inl out →
      ∃ ext, out.trOf = tr ++ ext ∧ ∀ e ∈ ext, hsName e.1)
    ∧ (∀ f2 tr2, hsIter env f tr = Sum.inr (f2, tr2) →
      ∃ ext, tr2 = tr ++ ext ∧ ∀ e ∈ ext, hsName e.1) := by
  rw [hsIter_eq]
  rw [hsIterSend_eq, hsIterSend_eq]
  constructor
  · intro out h
    split_ifs at h
    all_goals
      first
      | exact Sum.noConfusion h
      | (cases h
         first
         | (refine ⟨[], ?_⟩; simp [HsOut.trOf]; done)
         | (refine ⟨[(CallName.recvProxy, f)], ?_⟩
            simp [HsOut.trOf, hsName, List.append_assoc]
            done)
         | (refine ⟨[(CallName.siSendProxy, f)], ?_⟩
            simp [HsOut.trOf, hsName, List.append_assoc]
            done)
         | (refine ⟨[(CallName.recvProxy, f), (CallName.siSendProxy, (env.recv_proxy f).1)], ?_⟩
            simp [HsOut.trOf, hsName, List.append_assoc]
            done))
  · intro f2 tr2 h
    split_ifs at h
    all_goals
      first
      | exact Sum.noConfusion h
      | (cases h
         first
         | (refine ⟨[], ?_⟩; simp; done)
         | (refine ⟨[(CallName.siSendProxy, f)], ?_⟩; simp [hsName, List.append_assoc]; done)
         | (refine ⟨[(CallName.recvProxy, f)], ?_⟩; simp [hsName, List.append_assoc]; done)
         | (refine ⟨[(CallName.recvProxy, f), (CallName.siSendProxy, (env.recv_proxy f).1)], ?_⟩
            simp [hsName, List.append_assoc]
            done))

/-- The handshake loop only appends sub-handler entries to the trace. -/
lemma handshakeLoop_ext (env : Env) :
    ∀ fuel f tr out, handshakeLoop env fuel f tr = some out →
      ∃ ext, out.trOf = tr ++ ext ∧ ∀ e ∈ ext, hsName e.1 := by
  intro fuel
  induction fuel with
  | zero => intro f tr out h; simp [handshakeLoop] at h
  | succ n ih =>
    intro f tr out h
    rw [handshakeLoop] at h
    cases hit : hsIter env f tr with
    | inl out0 =>
      rw [hit] at h
      injection h with h2
      subst h2
      exact (hsIter_ext env f tr).1 out0 hit
    | inr p =>
      rw [hit] at h
      obtain ⟨ext2, he2, hn2⟩ := ih p.1 p.2 out h
      obtain ⟨ext1, he1, hn1⟩ := (hsIter_ext env f tr).2 p.1 p.2 (by rw [hit])
      refine ⟨ext1 ++ ext2, ?_, ?_⟩
      · rw [he2, he1, List.append_assoc]
      · intro e he
        rcases List.mem_append.mp he with hx | hx
        · exact hn1 e hx
        · exact hn2 e hx

/-- The handshake loop introduces no polling-commit entry. -/
lemma handshakeLoop_no_condUpdate (env : Env) (fuel : Nat) (f : ConnFlags)
    (tr : List TraceEntry) (out : HsOut)
    (h : handshakeLoop env fuel f tr = some out)
    (hmem : CallName.condUpdatePolling ∉ tr.map Prod.fst) :
    CallName.condUpdatePolling ∉ out.trOf.map Prod.fst := by
  obtain ⟨ext, he, hn⟩ := handshakeLoop_ext env fuel f tr out h
  rw [he, List.map_append]
  intro hx
  rcases List.mem_append.mp hx with hx | hx
  · exact hmem hx
  · obtain ⟨e, hee, hfst⟩ := List.mem_map.mp hx
    rcases hn e hee with h1 | h1 <;> rw [hfst] at h1 <;> exact CallName.noConfusion h1

/-- The leave block either leaves the event slot untouched (embryonic
abort) or clears exactly the four event bits (normal completion). -/
lemma leavePhase_ev_or (env : Env) (f : ConnFlags) (ev : EvSlot) (tr : List TraceEntry) :
    (leavePhase env f ev tr).ev = ev ∨ (leavePhase env f ev tr).ev = clearEv ev := by
  unfold leavePhase
  split
  · exact Or.inl rfl
  · exact Or.inr rfl

/-- When the leave block's trace contains the polling-commit entry that
was not already in the incoming trace, the leave block took the normal
branch, which clears the four event bits. -/
lemma leavePhase_clears_of_condUpdate (env : Env) (f : ConnFlags) (ev : EvSlot)
    (tr : List TraceEntry)
    (hnotin : CallName.condUpdatePolling ∉ tr.map Prod.fst)
    (hmem : CallName.condUpdatePolling ∈ (leavePhase env f ev tr).trace.map Prod.fst) :
    (leavePhase env f ev tr).ev = clearEv ev := by
  unfold leavePhase at hmem ⊢
  split_ifs at hmem ⊢
  all_goals
    first
    | rfl
    | (exfalso; exact hnotin (by simpa using hmem))

/-- The sock-stop step only appends its own entry to the trace. -/
lemma afterSock_no_condUpdate (env : Env) (f : ConnFlags) (tr : List TraceEntry)
    (h : CallName.condUpdatePolling ∉ tr.map Prod.fst) :
    CallName.condUpdatePolling ∉ (afterSock env f tr).2.map Prod.fst := by
  unfold afterSock
  split_ifs
  · simp [h]
  · exact h

/-- The session-completion step, when execution continues, only appends
its own entry to the trace. -/
lemma afterSess_inl_no_condUpdate (env : Env) (f : ConnFlags) (tr : List TraceEntry)
    (ev : EvSlot) (pr : ConnFlags × List TraceEntry)
    (h : afterSess env f tr ev = Sum.inl pr)
    (hn : CallName.condUpdatePolling ∉ tr.map Prod.fst) :
    CallName.condUpdatePolling ∉ pr.2.map Prod.fst := by
  unfold afterSess at h
  split_ifs at h
  all_goals
    first
    | exact Sum.noConfusion h
    | (injection h with h2; subst h2; simp [hn])

/-- The early return of lines 59-61 leaves the event slot untouched. -/
lemma afterSess_inr_ev (env : Env) (f : ConnFlags) (tr : List TraceEntry)
    (ev : EvSlot) (r : HResult)
    (h : afterSess env f tr ev = Sum.inr r) : r.ev = ev := by
  unfold afterSess at h
  split_ifs at h
  all_goals
    first
    | exact Sum.noConfusion h
    | (injection h with h2; subst h2; rfl)

/-- The early return of lines 59-61 issues no polling commit. -/
lemma afterSess_inr_no_condUpdate (env : Env) (f : ConnFlags) (tr : List TraceEntry)
    (ev : EvSlot) (r : HResult)
    (h : afterSess env f tr ev = Sum.inr r)
    (hn : CallName.condUpdatePolling ∉ tr.map Prod.fst) :
    CallName.condUpdatePolling ∉ r.trace.map Prod.fst := by
  unfold afterSess at h
  split_ifs at h
  all_goals
    first
    | exact Sum.noConfusion h
    | (injection h with h2; subst h2; simp [hn])

/-- Every completed cycle either leaves the event slot untouched (the two
early-return paths) or clears exactly the four event bits (the normal
completion path). -/
lemma cycle_ev_dichotomy (env : Env) :
    ∀ fuel f ev tr r, cycle env fuel f ev tr = some r →
      r.ev = ev ∨ r.ev = clearEv ev := by
  intro fuel
  induction fuel with
  | zero => intro f ev tr r h; simp [cycle] at h
  | succ n ih =>
    intro f ev tr r h
    simp only [cycle] at h
    cases hh : handshakeLoop env (n + 1) f tr with
    | none => rw [hh] at h; exact Option.noConfusion h
    | some out =>
      rw [hh] at h
      cases out with
      | leave f1 tr1 =>
        injection h with h2
        subst h2
        exact leavePhase_ev_or env f1 ev tr1
      | fell f1 tr1 =>
        dsimp only at h
        cases hs : afterSess env (afterSock env f1 tr1).1 (afterSock env f1 tr1).2 ev with
        | inr r0 =>
          rw [hs] at h
          injection h with h2
          subst h2
          exact Or.inl (afterSess_inr_ev env _ _ ev r0 hs)
        | inl pr =>
          obtain ⟨f3, tr3⟩ := pr
          rw [hs] at h
          dsimp only at h
          cases hd : (dataPhase env f3 ev).2.2 with
          | reHandshake =>
            rw [hd] at h
            exact ih _ _ _ _ h
          | toLeave =>
            rw [hd] at h
            injection h with h2
            subst h2
            exact leavePhase_ev_or env _ ev _
          | fallThrough =>
            rw [hd] at h
            injection h with h2
            subst h2
            exact leavePhase_ev_or env _ ev _

/-- When a completed cycle's trace contains a polling-commit entry that
was not already in the incoming trace, the cycle ended on the normal
completion path and cleared the four event bits. -/
lemma cycle_clears_of_condUpdate (env : Env) :
    ∀ fuel f ev tr r, cycle env fuel f ev tr = some r →
      CallName.condUpdatePolling ∉ tr.map Prod.fst →
      CallName.condUpdatePolling ∈ r.trace.map Prod.fst →
      r.ev = clearEv ev := by
  intro fuel
  induction fuel with
  | zero => intro f ev tr r h; simp [cycle] at h
  | succ n ih =>
    intro f ev tr r h hn hmem
    simp only [cycle] at h
    cases hh : handshakeLoop env (n + 1) f tr with
    | none => rw [hh] at h; exact Option.noConfusion h
    | some out =>
      rw [hh] at h
      cases out with
      | leave f1 tr1 =>
        injection h with h2
        subst h2
        exact leavePhase_clears_of_condUpdate env f1 ev tr1
          (handshakeLoop_no_condUpdate env (n + 1) f tr _ hh hn) hmem
      | fell f1 tr1 =>
        have hn1 : CallName.condUpdatePolling ∉ tr1.map Prod.fst :=
          handshakeLoop_no_condUpdate env (n + 1) f tr _ hh hn
        have hn2 : CallName.condUpdatePolling ∉ (afterSock env f1 tr1).2.map Prod.fst :=
          afterSock_no_condUpdate env f1 tr1 hn1
        dsimp only at h
        cases hs : afterSess env (afterSock env f1 tr1).1 (afterSock env f1 tr1).2 ev with
        | inr r0 =>
          rw [hs] at h
          injection h with h2
          subst h2
          exact absurd hmem (afterSess_inr_no_condUpdate env _ _ ev r0 hs hn2)
        | inl pr =>
          obtain ⟨f3, tr3⟩ := pr
          rw [hs] at h
          dsimp only at h
          have hn3 : CallName.condUpdatePolling ∉ tr3.map Prod.fst :=
            afterSess_inl_no_condUpdate env _ _ ev (f3, tr3) hs hn2
          have hn4 : CallName.condUpdatePolling
              ∉ (tr3 ++ (dataPhase env f3 ev).2.1).map Prod.fst := by
            rw [List.map_append]
            intro hx
            rcases List.mem_append.mp hx with hx | hx
            · exact hn3 hx
            · exact dataPhase_no_condUpdate env f3 ev hx
          cases hd : (dataPhase env f3 ev).2.2 with
          | reHandshake =>
            rw [hd] at h
            exact ih _ _ _ _ h hn4 hmem
          | toLeave =>
            rw [hd] at h
            injection h with h2
            subst h2
            exact leavePhase_clears_of_condUpdate env _ ev _ hn4 hmem
          | fallThrough =>
            rw [hd] at h
            injection h with h2
            subst h2
            exact leavePhase_clears_of_condUpdate env _ ev _ hn4 hmem

/-- C2 counterexample: with an owner connection present (`accept_proxy`
and `init_sess` set), a PROXY-parse failure that latches `CO_FL_ERROR`
sends the cycle through the embryonic-abort return (lines 97-101), which
returns 0 with the descriptor's `FD_POLL_IN` bit still set — so the
handler does not clear the event bits on this return path. -/
theorem conn_fd_handler_ev_clear_counterexample :
    (conn_fd_handler abortEnv 8
        (some { noFlags with accept_proxy := true, init_sess := true })
        { noEv with poll_in := true }).map (fun r => r.ev.poll_in) = some true := by
  rfl

/-- C2 amended: the handler clears the four event bits exactly on the
normal completion path — every completed invocation either leaves the
event slot untouched (the owner-null return, the line-61 destroy return
and the embryonic-abort return) or clears the four bits, and whenever the
invocation reached the polling commit (a `conn_cond_update_polling`
entry appears in its trace) the four bits were cleared. -/
theorem conn_fd_handler_clears_ev_amended (env : Env) (fuel : Nat)
    (owner : Option ConnFlags) (ev : EvSlot) (r : HResult)
    (h : conn_fd_handler env fuel owner ev = some r) :
    (r.ev = ev ∨ r.ev = clearEv ev)
    ∧ (CallName.condUpdatePolling ∈ r.trace.map Prod.fst → r.ev = clearEv ev) := by
  cases owner with
  | none =>
    injection h with h2
    subst h2
    exact ⟨Or.inl rfl, by intro hx; simp at hx⟩
  | some f =>
    exact ⟨cycle_ev_dichotomy env fuel f ev [] r h,
      fun hmem => cycle_clears_of_condUpdate env fuel f ev [] r h (by simp) hmem⟩

/-- Witness for `conn_fd_handler_clears_ev_amended` at a concrete run
that reaches the polling commit: the event bits come back cleared. -/
theorem conn_fd_handler_clears_ev_amended_witness :
    (⟨some { noFlags with connected := true }, noEv,
      [(CallName.sockStopBoth, noFlags),
       (CallName.condUpdatePolling, { noFlags with connected := true })], 0⟩ : HResult).ev
      = clearEv noEv :=
  (conn_fd_handler_clears_ev_amended idEnv 1 (some noFlags) noEv
    ⟨some { noFlags with connected := true }, noEv,
      [(CallName.sockStopBoth, noFlags),
       (CallName.condUpdatePolling, { noFlags with connected := true })], 0⟩ rfl).2
    (by decide)

/-- C9: when `fdtab[fd].owner` is null the handler returns 0 immediately:
no event-facility primitive, callback or sub-handler is invoked (the trace
is empty) and the event slot is unchanged. -/
theorem conn_fd_handler_null_owner (env : Env) (fuel : Nat) (ev : EvSlot) :
    conn_fd_handler env fuel none ev = some ⟨none, ev, [], 0⟩ := rfl

/-- An environment for C10: the PROXY parser latches `CO_FL_ERROR`, clears
its own bit and reports done; the PROXY emitter leaves its bit pending and
reports done; the rest is inert. -/
def c10Env : Env :=
  ⟨fun f => ({ f with error := true, accept_proxy := false }, true),
   fun f => (f, true),
   fun f => f,
   fun f => (f, 0),
   fun f => f,
   fun f => f,
   fun f => (f, true),
   fun f => f,
   fun f => f⟩

/-- Starting flags for C10: both handshake kinds pending. -/
def c10Start : ConnFlags := { noFlags with accept_proxy := true, si_send_proxy := true }

/-- Flags after the C10 PROXY parse: error latched, `SI_SEND_PROXY` still
pending. -/
def c10Mid : ConnFlags := { noFlags with error := true, si_send_proxy := true }

/-- C10: `CO_FL_ERROR` is tested only at the top of a handshake-loop
iteration.  With a parser that latches the error yet reports done while
`SI_SEND_PROXY` is still pending, `conn_si_send_proxy` is invoked in the
same iteration with the error already set (the trace records it called at
`c10Mid`, whose error bit is true), and the loop exits through the error
check only at the top of the next iteration — both sub-handlers returned
done, so the exit is not a not-done exit, and the flags at exit are the
unchanged `c10Mid`. -/
theorem handshake_error_checked_only_at_top :
    handshakeLoop c10Env 3 c10Start []
      = some (.leave c10Mid [(CallName.recvProxy, c10Start), (CallName.siSendProxy, c10Mid)])
    ∧ c10Mid.error = true
    ∧ (c10Env.recv_proxy c10Start).2 = true
    ∧ (c10Env.si_send_proxy c10Mid).2 = true :=
  ⟨rfl, rfl, rfl, rfl⟩

/-- C5: when the leave block is reached with `CO_FL_ERROR` and
`CO_FL_INIT_SESS` both set, the handler force-completes the embryonic
session — the whole result is the session-shim call and return 0, with the
event slot untouched, no `conn_notify_si`, no `CO_FL_CONNECTED` write and
no polling commit; and only when that conjunction does not hold is
`conn_notify_si` invoked, exactly when `CO_FL_NOTIFY_SI` is set. -/
theorem leavePhase_abort_characterized (env : Env) (f : ConnFlags) (ev : EvSlot)
    (tr : List TraceEntry) :
    (f.error = true → f.init_sess = true →
      leavePhase env f ev tr =
        ⟨(if (env.session_complete { f with error := true }).2 < 0 then none
          else some (env.session_complete { f with error := true }).1), ev,
         tr ++ [(CallName.sessionComplete, { f with error := true })], 0⟩)
    ∧ (¬(f.error = true ∧ f.init_sess = true) →
        (CallName.notifySi ∈ ((leavePhase env f ev tr).trace.drop tr.length).map Prod.fst
          ↔ f.notify_si = true)) := by
  constructor
  · intro he hi
    unfold leavePhase
    rw [if_pos (by simp [he, hi])]
  · intro hne
    unfold leavePhase
    rw [if_neg (by simpa [Bool.and_eq_true] using hne)]
    by_cases hn : f.notify_si = true <;>
      simp [hn, List.append_assoc, List.drop_left]

/-- Witness for `leavePhase_abort_characterized`: a concrete abort-path
run (both bits set) produces exactly the session-shim call with the event
slot untouched, and a concrete normal run with `CO_FL_NOTIFY_SI` clear
pokes nobody. -/
theorem leavePhase_abort_characterized_witness :
    leavePhase idEnv { noFlags with error := true, init_sess := true } noEv []
      = ⟨some { noFlags with error := true }, noEv,
         [(CallName.sessionComplete, { noFlags with error := true, init_sess := true })], 0⟩
    ∧ ¬(CallName.notifySi
        ∈ ((leavePhase idEnv noFlags noEv []).trace.drop
            (List.length ([] : List TraceEntry))).map Prod.fst) := by
  constructor
  · exact ((leavePhase_abort_characterized idEnv
      { noFlags with error := true, init_sess := true } noEv []).1 rfl rfl).trans (by decide)
  · intro hx
    exact absurd (((leavePhase_abort_characterized idEnv noFlags noEv []).2
      (by decide)).mp hx) (by decide)

/-- A loop-body pass returns `fell` only from the `while`-condition test,
so the composite handshake bit is clear there. -/
lemma hsIter_fell (env : Env) (f : ConnFlags) (tr : List TraceEntry)
    (f1 : ConnFlags) (tr1 : List TraceEntry)
    (h : hsIter env f tr = Sum.inl (.fell f1 tr1)) : hsk f1 = false := by
  rw [hsIter_eq, hsIterSend_eq, hsIterSend_eq] at h
  by_cases h0 : hsk f = true
  · rw [if_neg (by simp [h0])] at h
    split_ifs at h
    all_goals
      first
      | exact Sum.noConfusion h
      | (injection h with hx; exact HsOut.noConfusion hx)
  · rw [if_pos (by simp [Bool.not_eq_true] at h0 ⊢; exact h0)] at h
    injection h with hx
    injection hx with ha hb
    subst ha
    simpa [Bool.not_eq_true] using h0

/-- A loop-body pass exits with `leave` only through the error check at
the top of the iteration or through a sub-handler reporting not-done, in
which case the failing call is the last trace entry. -/
lemma hsIter_leave (env : Env) (f : ConnFlags) (tr : List TraceEntry)
    (f1 : ConnFlags) (tr1 : List TraceEntry)
    (h : hsIter env f tr = Sum.inl (.leave f1 tr1)) :
    f1.error = true
    ∨ (∃ g, env.recv_proxy g = (f1, false)
        ∧ tr1.getLast? = some (CallName.recvProxy, g))
    ∨ (∃ g, env.si_send_proxy g = (f1, false)
        ∧ tr1.getLast? = some (CallName.siSendProxy, g)) := by
  rw [hsIter_eq, hsIterSend_eq, hsIterSend_eq] at h
  split_ifs at h with h0 h1 h2 h3 h4 h5 h6 h7
  all_goals
    first
    | exact Sum.noConfusion h
    | (injection h with hx; exact HsOut.noConfusion hx)
    | (injection h with hx
       injection hx with ha hb
       subst ha; subst hb
       first
       | exact Or.inl h1
       | (refine Or.inr (Or.inl ⟨f, ?_, ?_⟩)
          · exact Prod.ext rfl (by simpa [Bool.not_eq_true] using h3)
          · exact List.getLast?_concat _)
       | (refine Or.inr (Or.inr ⟨(env.recv_proxy f).1, ?_, ?_⟩)
          · exact Prod.ext rfl (by simpa [Bool.not_eq_true] using h5)
          · exact List.getLast?_concat _)
       | (refine Or.inr (Or.inr ⟨f, ?_, ?_⟩)
          · exact Prod.ext rfl (by simpa [Bool.not_eq_true] using h7)
          · exact List.getLast?_concat _))

/-- When the loop body runs with the accept-proxy bit pending (and gets
past the error check), the first call it appends is `conn_recv_proxy` on
the entry flags, before any `conn_si_send_proxy` entry. -/
lemma hsIter_first (env : Env) (f : ConnFlags) (tr : List TraceEntry)
    (h0 : hsk f = true) (h1 : f.error = false) (h2 : f.accept_proxy = true) :
    (∀ out, hsIter env f tr = Sum.inl out →
      ∃ rest, out.trOf = tr ++ (CallName.recvProxy, f) :: rest)
    ∧ (∀ f2 tr2, hsIter env f tr = Sum.inr (f2, tr2) →
      ∃ rest, tr2 = tr ++ (CallName.recvProxy, f) :: rest) := by
  rw [hsIter_eq, hsIterSend_eq, hsIterSend_eq]
  rw [if_neg (by simp [h0]), if_neg (by simp [h1]), if_pos h2]
  constructor
  · intro out h
    split_ifs at h
    all_goals
      first
      | exact Sum.noConfusion h
      | (injection h with hx; subst hx
         first
         | (refine ⟨[], ?_⟩; simp [HsOut.trOf]; done)
         | (refine ⟨[(CallName.siSendProxy, (env.recv_proxy f).1)], ?_⟩
            simp [HsOut.trOf, List.append_assoc]
            done))
  · intro f2 tr2 h
    split_ifs at h
    all_goals
      first
      | exact Sum.noConfusion h
      | (injection h with hx
         injection hx with ha hb
         subst hb
         first
         | (refine ⟨[], ?_⟩; simp; done)
         | (refine ⟨[(CallName.siSendProxy, (env.recv_proxy f).1)], ?_⟩
            simp [List.append_assoc]
            done))

/-- A `fell` outcome of the handshake loop has the composite bit clear. -/
lemma handshakeLoop_fell (env : Env) :
    ∀ fuel f tr f1 tr1,
      handshakeLoop env fuel f tr = some (.fell f1 tr1) → hsk f1 = false := by
  intro fuel
  induction fuel with
  | zero => intro f tr f1 tr1 h; simp [handshakeLoop] at h
  | succ n ih =>
    intro f tr f1 tr1 h
    rw [handshakeLoop] at h
    cases hit : hsIter env f tr with
    | inl out0 =>
      rw [hit] at h
      injection h with h2
      rw [h2] at hit
      exact hsIter_fell env f tr f1 tr1 hit
    | inr p =>
      obtain ⟨f2, tr2⟩ := p
      rw [hit] at h
      dsimp only at h
      exact ih f2 tr2 f1 tr1 h

/-- A `leave` outcome of the handshake loop comes from the error check at
the top of an iteration or from a sub-handler reporting not-done (then the
failing call is the last trace entry). -/
lemma handshakeLoop_leave (env : Env) :
    ∀ fuel f tr f1 tr1,
      handshakeLoop env fuel f tr = some (.leave f1 tr1) →
        f1.error = true
        ∨ (∃ g, env.recv_proxy g = (f1, false)
            ∧ tr1.getLast? = some (CallName.recvProxy, g))
        ∨ (∃ g, env.si_send_proxy g = (f1, false)
            ∧ tr1.getLast? = some (CallName.siSendProxy, g)) := by
  intro fuel
  induction fuel with
  | zero => intro f tr f1 tr1 h; simp [handshakeLoop] at h
  | succ n ih =>
    intro f tr f1 tr1 h
    rw [handshakeLoop] at h
    cases hit : hsIter env f tr with
    | inl out0 =>
      rw [hit] at h
      injection h with h2
      rw [h2] at hit
      exact hsIter_leave env f tr f1 tr1 hit
    | inr p =>
      obtain ⟨f2, tr2⟩ := p
      rw [hit] at h
      dsimp only at h
      exact ih f2 tr2 f1 tr1 h

/-- When the loop starts an iteration with the accept-proxy bit pending
(and the error check passes), the first appended call is the PROXY parser
on the entry flags; any PROXY-emitter entry comes after it. -/
lemma handshakeLoop_first (env : Env) (fuel : Nat) (f : ConnFlags)
    (tr : List TraceEntry)
    (h0 : hsk f = true) (h1 : f.error = false) (h2 : f.accept_proxy = true)
    (out : HsOut) (h : handshakeLoop env fuel f tr = some out) :
    ∃ rest, out.trOf = tr ++ (CallName.recvProxy, f) :: rest := by
  cases fuel with
  | zero => simp [handshakeLoop] at h
  | succ n =>
    rw [handshakeLoop] at h
    cases hit : hsIter env f tr with
    | inl out0 =>
      rw [hit] at h
      injection h with h2x
      rw [h2x] at hit
      exact (hsIter_first env f tr h0 h1 h2).1 out hit
    | inr p =>
      obtain ⟨f2, tr2⟩ := p
      rw [hit] at h
      dsimp only at h
      obtain ⟨rest1, hr1⟩ := (hsIter_first env f tr h0 h1 h2).2 f2 tr2 hit
      obtain ⟨ext2, he2, hnames⟩ := handshakeLoop_ext env n f2 tr2 out h
      exact ⟨rest1 ++ ext2, by rw [he2, hr1]; simp [List.append_assoc]⟩

/-- C4: in every iteration of the handshake loop the `ACCEPT_PROXY`
sub-handler is invoked before the `SI_SEND_PROXY` sub-handler (when its
bit is pending, the parser's entry is the first one the iteration
appends); the loop exits exactly when the composite bit clears (`fell`
outcomes have it clear), the error check fires, or an invoked sub-handler
returns not-done (then that call is the last trace entry); and a `leave`
outcome sends the cycle directly to the leave block, skipping the data
phase. -/
theorem handshake_loop_order_and_exits (env : Env) (fuel : Nat) (f : ConnFlags)
    (tr : List TraceEntry) (ev : EvSlot) :
    (∀ f1 tr1, handshakeLoop env fuel f tr = some (.fell f1 tr1) → hsk f1 = false)
    ∧ (∀ f1 tr1, handshakeLoop env fuel f tr = some (.leave f1 tr1) →
        f1.error = true
        ∨ (∃ g, env.recv_proxy g = (f1, false)
            ∧ tr1.getLast? = some (CallName.recvProxy, g))
        ∨ (∃ g, env.si_send_proxy g = (f1, false)
            ∧ tr1.getLast? = some (CallName.siSendProxy, g)))
    ∧ (hsk f = true → f.error = false → f.accept_proxy = true →
        ∀ out, handshakeLoop env fuel f tr = some out →
          ∃ rest, out.trOf = tr ++ (CallName.recvProxy, f) :: rest)
    ∧ (∀ f1 tr1, handshakeLoop env (fuel + 1) f tr = some (.leave f1 tr1) →
        cycle env (fuel + 1) f ev tr = some (leavePhase env f1 ev tr1)) := by
  refine ⟨handshakeLoop_fell env fuel f tr, handshakeLoop_leave env fuel f tr,
    fun h0 h1 h2 out h => handshakeLoop_first env fuel f tr h0 h1 h2 out h,
    fun f1 tr1 h => ?_⟩
  simp only [cycle]
  rw [h]

/-- Witness for `handshake_loop_order_and_exits` at concrete runs: a
completed loop leaves the composite bit clear, the accept-proxy parser is
the first appended call, and a not-done exit routes the cycle straight to
the leave block. -/
theorem handshake_loop_order_and_exits_witness :
    hsk noFlags = false
    ∧ (∃ rest, HsOut.trOf
        (.fell noFlags [(CallName.recvProxy, { noFlags with accept_proxy := true })])
        = [] ++ (CallName.recvProxy, { noFlags with accept_proxy := true }) :: rest)
    ∧ cycle abortEnv 1 { noFlags with accept_proxy := true } noEv []
        = some (leavePhase abortEnv { noFlags with accept_proxy := true, error := true }
            noEv [(CallName.recvProxy, { noFlags with accept_proxy := true })]) :=
  ⟨(handshake_loop_order_and_exits idEnv 2 { noFlags with accept_proxy := true } [] noEv).1
      noFlags [(CallName.recvProxy, { noFlags with accept_proxy := true })] rfl,
   (handshake_loop_order_and_exits idEnv 2 { noFlags with accept_proxy := true } [] noEv).2.2.1
      rfl rfl rfl
      (.fell noFlags [(CallName.recvProxy, { noFlags with accept_proxy := true })]) rfl,
   (handshake_loop_order_and_exits abortEnv 0 { noFlags with accept_proxy := true } [] noEv).2.2.2
      { noFlags with accept_proxy := true, error := true }
      [(CallName.recvProxy, { noFlags with accept_proxy := true })] rfl⟩

/-- Flags after the recv half-step (line 63-64): `app_cb->recv` runs
exactly when the event test of line 63 holds. -/
def dpRecvFlags (env : Env) (f : ConnFlags) (ev : EvSlot) : ConnFlags :=
  if recvCond ev then env.app_recv f else f

/-- Trace of the recv half-step. -/
def dpRecvTr (f : ConnFlags) (ev : EvSlot) : List TraceEntry :=
  if recvCond ev then [(CallName.appRecv, f)] else []

/-- Flags after the send half-step (line 75-76), starting from the flags
the recv half-step produced. -/
def dpSendFlags (env : Env) (f : ConnFlags) (ev : EvSlot) : ConnFlags :=
  if sendCond ev then env.app_send (dpRecvFlags env f ev) else dpRecvFlags env f ev

/-- Trace of the send half-step. -/
def dpSendTr (env : Env) (f : ConnFlags) (ev : EvSlot) : List TraceEntry :=
  if sendCond ev then [(CallName.appSend, dpRecvFlags env f ev)] else []

/-- Call names of a data-phase run. -/
def dpNames (env : Env) (f : ConnFlags) (ev : EvSlot) : List CallName :=
  (dataPhase env f ev).2.1.map Prod.fst

/-- The data phase restated through its half-step abbreviations. -/
lemma dataPhase_eq (env : Env) (f : ConnFlags) (ev : EvSlot) :
    dataPhase env f ev =
      if (dpRecvFlags env f ev).error then
        (dpRecvFlags env f ev, dpRecvTr f ev, DPExit.toLeave)
      else if hsk (dpRecvFlags env f ev) then
        (dpRecvFlags env f ev, dpRecvTr f ev, DPExit.reHandshake)
      else if (dpSendFlags env f ev).error then
        (dpSendFlags env f ev, dpRecvTr f ev ++ dpSendTr env f ev, DPExit.toLeave)
      else if hsk (dpSendFlags env f ev) then
        (dpSendFlags env f ev, dpRecvTr f ev ++ dpSendTr env f ev, DPExit.reHandshake)
      else if (dpSendFlags env f ev).wait_l4_conn then
        ((env.connect_probe (dpSendFlags env f ev)).1,
         dpRecvTr f ev ++ dpSendTr env f ev
           ++ [(CallName.connectProbe, dpSendFlags env f ev)],
         if (env.connect_probe (dpSendFlags env f ev)).2 then DPExit.fallThrough
         else DPExit.toLeave)
      else
        (dpSendFlags env f ev, dpRecvTr f ev ++ dpSendTr env f ev, DPExit.fallThrough) :=
  rfl

/-- The data phase's call-name list, in execution order. -/
lemma dpNames_eq (env : Env) (f : ConnFlags) (ev : EvSlot) :
    dpNames env f ev =
      (if recvCond ev then [CallName.appRecv] else [])
      ++ (if !(dpRecvFlags env f ev).error && !(hsk (dpRecvFlags env f ev))
             && sendCond ev then [CallName.appSend] else [])
      ++ (if !(dpRecvFlags env f ev).error && !(hsk (dpRecvFlags env f ev))
             && !(dpSendFlags env f ev).error && !(hsk (dpSendFlags env f ev))
             && (dpSendFlags env f ev).wait_l4_conn then [CallName.connectProbe]
          else []) := by
  unfold dpNames
  rw [dataPhase_eq]
  by_cases h1 : (dpRecvFlags env f ev).error = true <;>
  by_cases h2 : hsk (dpRecvFlags env f ev) = true <;>
  by_cases h3 : (dpSendFlags env f ev).error = true <;>
  by_cases h4 : hsk (dpSendFlags env f ev) = true <;>
  by_cases h5 : (dpSendFlags env f ev).wait_l4_conn = true <;>
  by_cases h6 : recvCond ev = true <;>
  by_cases h7 : sendCond ev = true <;>
    simp [h1, h2, h3, h4, h5, h6, h7, dpRecvTr, dpSendTr]

/-- C3: order of the data phase within one readiness cycle.
`app_cb->recv` is invoked iff `POLL_IN|POLL_HUP|POLL_ERR` is set; a latched
error then exits to the leave path before the send half-step; a re-raised
handshake then returns control to the handshake loop before the send
half-step; `app_cb->send` is invoked iff `POLL_OUT|POLL_ERR` is set and the
two post-recv checks passed; the same two checks follow the send half-step;
finally, with `WAIT_L4_CONN` still set, `tcp_connect_probe` runs and a
false result exits to the leave path.  The call-name equation shows recv
precedes send precedes the connect probe. -/
theorem data_phase_order (env : Env) (f : ConnFlags) (ev : EvSlot) :
    ((CallName.appRecv ∈ dpNames env f ev) ↔ recvCond ev = true)
    ∧ ((dpRecvFlags env f ev).error = true →
        dataPhase env f ev = (dpRecvFlags env f ev, dpRecvTr f ev, DPExit.toLeave))
    ∧ ((dpRecvFlags env f ev).error = false → hsk (dpRecvFlags env f ev) = true →
        dataPhase env f ev = (dpRecvFlags env f ev, dpRecvTr f ev, DPExit.reHandshake))
    ∧ ((CallName.appSend ∈ dpNames env f ev) ↔
        ((dpRecvFlags env f ev).error = false ∧ hsk (dpRecvFlags env f ev) = false
          ∧ sendCond ev = true))
    ∧ ((dpRecvFlags env f ev).error = false → hsk (dpRecvFlags env f ev) = false →
        (dpSendFlags env f ev).error = true →
        dataPhase env f ev
          = (dpSendFlags env f ev, dpRecvTr f ev ++ dpSendTr env f ev, DPExit.toLeave))
    ∧ ((dpRecvFlags env f ev).error = false → hsk (dpRecvFlags env f ev) = false →
        (dpSendFlags env f ev).error = false → hsk (dpSendFlags env f ev) = true →
        dataPhase env f ev
          = (dpSendFlags env f ev, dpRecvTr f ev ++ dpSendTr env f ev, DPExit.reHandshake))
    ∧ ((dpRecvFlags env f ev).error = false → hsk (dpRecvFlags env f ev) = false →
        (dpSendFlags env f ev).error = false → hsk (dpSendFlags env f ev) = false →
        (dpSendFlags env f ev).wait_l4_conn = true →
        dataPhase env f ev
          = ((env.connect_probe (dpSendFlags env f ev)).1,
             dpRecvTr f ev ++ dpSendTr env f ev
               ++ [(CallName.connectProbe, dpSendFlags env f ev)],
             if (env.connect_probe (dpSendFlags env f ev)).2 then DPExit.fallThrough
             else DPExit.toLeave))
    ∧ (dpNames env f ev =
        (if recvCond ev then [CallName.appRecv] else [])
        ++ (if !(dpRecvFlags env f ev).error && !(hsk (dpRecvFlags env f ev))
               && sendCond ev then [CallName.appSend] else [])
        ++ (if !(dpRecvFlags env f ev).error && !(hsk (dpRecvFlags env f ev))
               && !(dpSendFlags env f ev).error && !(hsk (dpSendFlags env f ev))
               && (dpSendFlags env f ev).wait_l4_conn then [CallName.connectProbe]
            else [])) := by
  refine ⟨?_, ?_, ?_, ?_, ?_, ?_, ?_, dpNames_eq env f ev⟩
  · rw [dpNames_eq]
    by_cases h1 : (dpRecvFlags env f ev).error = true <;>
    by_cases h2 : hsk (dpRecvFlags env f ev) = true <;>
    by_cases h3 : (dpSendFlags env f ev).error = true <;>
    by_cases h4 : hsk (dpSendFlags env f ev) = true <;>
    by_cases h5 : (dpSendFlags env f ev).wait_l4_conn = true <;>
    by_cases h6 : recvCond ev = true <;>
    by_cases h7 : sendCond ev = true <;>
      simp [h1, h2, h3, h4, h5, h6, h7]
  · intro h
    rw [dataPhase_eq, if_pos h]
  · intro h he
    rw [dataPhase_eq, if_neg (by simp [h]), if_pos he]
  · rw [dpNames_eq]
    by_cases h1 : (dpRecvFlags env f ev).error = true <;>
    by_cases h2 : hsk (dpRecvFlags env f ev) = true <;>
    by_cases h3 : (dpSendFlags env f ev).error = true <;>
    by_cases h4 : hsk (dpSendFlags env f ev) = true <;>
    by_cases h5 : (dpSendFlags env f ev).wait_l4_conn = true <;>
    by_cases h6 : recvCond ev = true <;>
    by_cases h7 : sendCond ev = true <;>
      simp [h1, h2, h3, h4, h5, h6, h7]
  · intro ha hb hc
    rw [dataPhase_eq, if_neg (by simp [ha]), if_neg (by simp [hb]), if_pos hc]
  · intro ha hb hc hd
    rw [dataPhase_eq, if_neg (by simp [ha]), if_neg (by simp [hb]),
      if_neg (by simp [hc]), if_pos hd]
  · intro ha hb hc hd hw
    rw [dataPhase_eq, if_neg (by simp [ha]), if_neg (by simp [hb]),
      if_neg (by simp [hc]), if_neg (by simp [hd]), if_pos hw]

/-- An environment whose application recv callback latches `CO_FL_ERROR`;
the rest is inert. -/
def recvErrEnv : Env :=
  ⟨fun f => ({ f with accept_proxy := false }, true),
   fun f => ({ f with si_send_proxy := false }, true),
   fun f => f,
   fun f => ({ f with init_sess := false }, 0),
   fun f => { f with error := true },
   fun f => f,
   fun f => ({ f with wait_l4_conn := false }, true),
   fun f => f,
   fun f => f⟩

/-- Witness for `data_phase_order` at concrete runs: a recv callback that
latches the error makes the phase exit to leave right after recv, and a
connection still waiting for L4 runs the connect probe after the send
half-step. -/
theorem data_phase_order_witness :
    dataPhase recvErrEnv noFlags { noEv with poll_in := true }
      = (dpRecvFlags recvErrEnv noFlags { noEv with poll_in := true },
         dpRecvTr noFlags { noEv with poll_in := true }, DPExit.toLeave)
    ∧ dataPhase idEnv { noFlags with wait_l4_conn := true } noEv
      = ((idEnv.connect_probe
            (dpSendFlags idEnv { noFlags with wait_l4_conn := true } noEv)).1,
         dpRecvTr { noFlags with wait_l4_conn := true } noEv
           ++ dpSendTr idEnv { noFlags with wait_l4_conn := true } noEv
           ++ [(CallName.connectProbe,
                dpSendFlags idEnv { noFlags with wait_l4_conn := true } noEv)],
         if (idEnv.connect_probe
              (dpSendFlags idEnv { noFlags with wait_l4_conn := true } noEv)).2
         then DPExit.fallThrough else DPExit.toLeave) :=
  ⟨(data_phase_order recvErrEnv noFlags { noEv with poll_in := true }).2.1 rfl,
   (data_phase_order idEnv { noFlags with wait_l4_conn := true } noEv).2.2.2.2.2.2.1
     rfl rfl rfl rfl rfl⟩

/-- Contract on the external collaborators for the establishment claims:
none of them touches the `CO_FL_CONNECTED` bit (the spec reserves that bit
for the readiness handler's established-edge step). -/
def connectedPreserving (env : Env) : Prop :=
  (∀ f, (env.recv_proxy f).1.connected = f.connected)
  ∧ (∀ f, (env.si_send_proxy f).1.connected = f.connected)
  ∧ (∀ f, (env.sock_stop_both f).connected = f.connected)
  ∧ (∀ f, (env.session_complete f).1.connected = f.connected)
  ∧ (∀ f, (env.app_recv f).connected = f.connected)
  ∧ (∀ f, (env.app_send f).connected = f.connected)
  ∧ (∀ f, (env.connect_probe f).1.connected = f.connected)
  ∧ (∀ f, (env.notify_si f).connected = f.connected)
  ∧ (∀ f, (env.cond_update_polling f).connected = f.connected)

/-- The notification step never touches `CO_FL_CONNECTED`. -/
lemma afterNotify_connected (env : Env) (hp : connectedPreserving env) (f : ConnFlags) :
    (afterNotify env f).connected = f.connected := by
  unfold afterNotify
  split_ifs
  · exact hp.2.2.2.2.2.2.2.1 f
  · rfl

/-- The send half of the loop body never touches `CO_FL_CONNECTED`. -/
lemma hsIterSend_connected (env : Env) (hp : connectedPreserving env)
    (f : ConnFlags) (tr : List TraceEntry) :
    (∀ out, hsIterSend env f tr = Sum.inl out → out.flagsOf.connected = f.connected)
    ∧ (∀ f2 tr2, hsIterSend env f tr = Sum.inr (f2, tr2) → f2.connected = f.connected) := by
  rw [hsIterSend_eq]
  constructor
  · intro out h
    split_ifs at h
    all_goals
      first
      | exact Sum.noConfusion h
      | (injection h with hx; rw [← hx]; exact hp.2.1 f)
  · intro f2 tr2 h
    split_ifs at h
    all_goals
      first
      | exact Sum.noConfusion h
      | (injection h with hx; injection hx with ha hb; rw [← ha]; exact hp.2.1 f)
      | (injection h with hx; injection hx with ha hb; rw [← ha])

/-- A loop-body pass never touches `CO_FL_CONNECTED`. -/
lemma hsIter_connected (env : Env) (hp : connectedPreserving env)
    (f : ConnFlags) (tr : List TraceEntry) :
    (∀ out, hsIter env f tr = Sum.inl out → out.flagsOf.connected = f.connected)
    ∧ (∀ f2 tr2, hsIter env f tr = Sum.inr (f2, tr2) → f2.connected = f.connected) := by
  rw [hsIter_eq]
  have hrp : (env.recv_proxy f).1.connected = f.connected := hp.1 f
  constructor
  · intro out h
    split_ifs at h
    all_goals
      first
      | exact Sum.noConfusion h
      | (injection h with hx; rw [← hx]; first | rfl | exact hrp)
      | (rw [(hsIterSend_connected env hp (env.recv_proxy f).1 _).1 out h]; exact hrp)
      | exact (hsIterSend_connected env hp f tr).1 out h
  · intro f2 tr2 h
    split_ifs at h
    all_goals
      first
      | exact Sum.noConfusion h
      | (rw [(hsIterSend_connected env hp (env.recv_proxy f).1 _).2 f2 tr2 h]; exact hrp)
      | exact (hsIterSend_connected env hp f tr).2 f2 tr2 h

/-- The handshake loop never touches `CO_FL_CONNECTED`. -/
lemma handshakeLoop_connected (env : Env) (hp : connectedPreserving env) :
    ∀ fuel f tr out, handshakeLoop env fuel f tr = some out →
      out.flagsOf.connected = f.connected := by
  intro fuel
  induction fuel with
  | zero => intro f tr out h; simp [handshakeLoop] at h
  | succ n ih =>
    intro f tr out h
    rw [handshakeLoop] at h
    cases hit : hsIter env f tr with
    | inl out0 =>
      rw [hit] at h
      injection h with h2
      rw [h2] at hit
      exact (hsIter_connected env hp f tr).1 out hit
    | inr p =>
      obtain ⟨f2, tr2⟩ := p
      rw [hit] at h
      dsimp only at h
      rw [ih f2 tr2 out h]
      exact (hsIter_connected env hp f tr).2 f2 tr2 hit

/-- The recv half-step never touches `CO_FL_CONNECTED`. -/
lemma dpRecvFlags_connected (env : Env) (hp : connectedPreserving env)
    (f : ConnFlags) (ev : EvSlot) :
    (dpRecvFlags env f ev).connected = f.connected := by
  unfold dpRecvFlags
  split_ifs
  · exact hp.2.2.2.2.1 f
  · rfl

/-- The send half-step never touches `CO_FL_CONNECTED`. -/
lemma dpSendFlags_connected (env : Env) (hp : connectedPreserving env)
    (f : ConnFlags) (ev : EvSlot) :
    (dpSendFlags env f ev).connected = f.connected := by
  unfold dpSendFlags
  split_ifs
  · rw [hp.2.2.2.2.2.1 (dpRecvFlags env f ev)]
    exact dpRecvFlags_connected env hp f ev
  · exact dpRecvFlags_connected env hp f ev

/-- The data phase never touches `CO_FL_CONNECTED`. -/
lemma dataPhase_connected (env : Env) (hp : connectedPreserving env)
    (f : ConnFlags) (ev : EvSlot) :
    (dataPhase env f ev).1.connected = f.connected := by
  rw [dataPhase_eq]
  split_ifs
  all_goals
    first
    | exact dpRecvFlags_connected env hp f ev
    | exact dpSendFlags_connected env hp f ev
    | (show (env.connect_probe (dpSendFlags env f ev)).1.connected = f.connected
       rw [hp.2.2.2.2.2.2.1 (dpSendFlags env f ev)]
       exact dpSendFlags_connected env hp f ev)

/-- The sock-stop step never touches `CO_FL_CONNECTED`. -/
lemma afterSock_connected (env : Env) (hp : connectedPreserving env)
    (f : ConnFlags) (tr : List TraceEntry) :
    (afterSock env f tr).1.connected = f.connected := by
  unfold afterSock
  split_ifs
  · exact hp.2.2.1 f
  · rfl

/-- The session step, when execution continues, never touches
`CO_FL_CONNECTED`. -/
lemma afterSess_inl_connected (env : Env) (hp : connectedPreserving env)
    (f : ConnFlags) (tr : List TraceEntry) (ev : EvSlot)
    (pr : ConnFlags × List TraceEntry)
    (h : afterSess env f tr ev = Sum.inl pr) : pr.1.connected = f.connected := by
  unfold afterSess at h
  split_ifs at h
  all_goals
    first
    | exact Sum.noConfusion h
    | (injection h with hx; rw [← hx]; done)
    | (injection h with hx; rw [← hx]; exact hp.2.2.2.1 f)

/-- The early return of lines 59-61 reports the connection destroyed. -/
lemma afterSess_inr_conn (env : Env) (f : ConnFlags) (tr : List TraceEntry)
    (ev : EvSlot) (r : HResult)
    (h : afterSess env f tr ev = Sum.inr r) : r.conn = none := by
  unfold afterSess at h
  split_ifs at h
  all_goals
    first
    | exact Sum.noConfusion h
    | (injection h with hx; rw [← hx])

/-- The established-edge step is monotone on `CO_FL_CONNECTED`. -/
lemma leaveConnectedStep_connected_mono (env : Env) (hp : connectedPreserving env)
    (f : ConnFlags) (hc : f.connected = true) :
    (leaveConnectedStep env f).connected = true := by
  unfold leaveConnectedStep
  split_ifs
  · rfl
  · rw [afterNotify_connected env hp]; exact hc

/-- The established-edge step sets `CO_FL_CONNECTED` only when none of the
two wait bits nor `CO_FL_CONNECTED` is set after the notification step. -/
lemma leaveConnectedStep_guard (env : Env) (hp : connectedPreserving env)
    (f : ConnFlags) (hc : f.connected = false)
    (hcc : (leaveConnectedStep env f).connected = true) :
    (!((afterNotify env f).wait_l4_conn || (afterNotify env f).wait_l6_conn
        || (afterNotify env f).connected)) = true := by
  unfold leaveConnectedStep at hcc
  split_ifs at hcc with hg
  · exact hg
  · rw [afterNotify_connected env hp, hc] at hcc
    exact Bool.noConfusion hcc

/-- The leave block is monotone on `CO_FL_CONNECTED`. -/
lemma leavePhase_connected_mono (env : Env) (hp : connectedPreserving env)
    (f : ConnFlags) (ev : EvSlot) (tr : List TraceEntry) (f' : ConnFlags)
    (h : (leavePhase env f ev tr).conn = some f') (hc : f.connected = true) :
    f'.connected = true := by
  unfold leavePhase at h
  split_ifs at h
  all_goals
    first
    | exact Option.noConfusion h
    | (injection h with hx; rw [← hx, hp.2.2.2.1]; exact hc)
    | (injection h with hx
       rw [← hx, hp.2.2.2.2.2.2.2.2]
       exact leaveConnectedStep_connected_mono env hp f hc)

/-- The leave block raises `CO_FL_CONNECTED` from clear only when the two
wait bits and `CO_FL_CONNECTED` are all clear after the notification step
(lines 106-108). -/
lemma leavePhase_connected_guard (env : Env) (hp : connectedPreserving env)
    (f : ConnFlags) (ev : EvSlot) (tr : List TraceEntry) (f' : ConnFlags)
    (h : (leavePhase env f ev tr).conn = some f') (hc : f.connected = false)
    (hcc : f'.connected = true) :
    (!((afterNotify env f).wait_l4_conn || (afterNotify env f).wait_l6_conn
        || (afterNotify env f).connected)) = true := by
  unfold leavePhase at h
  split_ifs at h
  all_goals
    first
    | exact Option.noConfusion h
    | (injection h with hx
       rw [← hx, hp.2.2.2.1] at hcc
       dsimp only at hcc
       rw [hc] at hcc
       exact Bool.noConfusion hcc)
    | (injection h with hx
       rw [← hx, hp.2.2.2.2.2.2.2.2] at hcc
       exact leaveConnectedStep_guard env hp f hc hcc)

/-- A completed cycle is monotone on `CO_FL_CONNECTED`: the core never
clears the bit (under the collaborator contract). -/
lemma cycle_connected_mono (env : Env) (hp : connectedPreserving env) :
    ∀ fuel f ev tr r f', cycle env fuel f ev tr = some r → r.conn = some f' →
      f.connected = true → f'.connected = true := by
  intro fuel
  induction fuel with
  | zero => intro f ev tr r f' h; simp [cycle] at h
  | succ n ih =>
    intro f ev tr r f' h hconn hc
    simp only [cycle] at h
    cases hh : handshakeLoop env (n + 1) f tr with
    | none => rw [hh] at h; exact Option.noConfusion h
    | some out =>
      rw [hh] at h
      cases out with
      | leave f1 tr1 =>
        injection h with h2
        subst h2
        refine leavePhase_connected_mono env hp f1 ev tr1 f' hconn ?_
        rw [show f1.connected = f.connected from
          handshakeLoop_connected env hp (n + 1) f tr (.leave f1 tr1) hh]
        exact hc
      | fell f1 tr1 =>
        dsimp only at h
        have hc1 : f1.connected = true := by
          rw [show f1.connected = f.connected from
            handshakeLoop_connected env hp (n + 1) f tr (.fell f1 tr1) hh]
          exact hc
        have hc2 : (afterSock env f1 tr1).1.connected = true := by
          rw [afterSock_connected env hp f1 tr1]; exact hc1
        cases hs : afterSess env (afterSock env f1 tr1).1 (afterSock env f1 tr1).2 ev with
        | inr r0 =>
          rw [hs] at h
          injection h with h2
          subst h2
          rw [afterSess_inr_conn env _ _ ev r0 hs] at hconn
          exact Option.noConfusion hconn
        | inl pr =>
          obtain ⟨f3, tr3⟩ := pr
          rw [hs] at h
          dsimp only at h
          have hc3 : f3.connected = true := by
            rw [show f3.connected = (afterSock env f1 tr1).1.connected from
              afterSess_inl_connected env hp _ _ ev (f3, tr3) hs]
            exact hc2
          have hc4 : (dataPhase env f3 ev).1.connected = true := by
            rw [dataPhase_connected env hp f3 ev]; exact hc3
          cases hd : (dataPhase env f3 ev).2.2 with
          | reHandshake =>
            rw [hd] at h
            exact ih _ _ _ _ _ h hconn hc4
          | toLeave =>
            rw [hd] at h
            injection h with h2
            subst h2
            exact leavePhase_connected_mono env hp _ ev _ f' hconn hc4
          | fallThrough =>
            rw [hd] at h
            injection h with h2
            subst h2
            exact leavePhase_connected_mono env hp _ ev _ f' hconn hc4

/-- A sequence of readiness cycles on a connection: one cycle per event
slot in the list, each continuing from the flags the previous cycle
produced, stopping early when the connection is destroyed.  Returns the
list of post-cycle flag words. -/
def runSeq (env : Env) (fuel : Nat) : List EvSlot → ConnFlags → Option (List ConnFlags)
  | [], _ => some []
  | ev :: rest, s =>
    match cycle env fuel s ev [] with
    | none => none
    | some r =>
      match r.conn with
      | none => some []
      | some s2 =>
        match runSeq env fuel rest s2 with
        | none => none
        | some l => some (s2 :: l)

/-- Number of cycles in a run that raise `CO_FL_CONNECTED` from clear to
set. -/
def countFlips : ConnFlags → List ConnFlags → Nat
  | _, [] => 0
  | s, s2 :: l =>
    (if s.connected = false ∧ s2.connected = true then 1 else 0) + countFlips s2 l

/-- Once `CO_FL_CONNECTED` is set, a run of cycles performs no further
flips. -/
lemma runSeq_connected_all_zero (env : Env) (hp : connectedPreserving env) :
    ∀ evs fuel s l, s.connected = true → runSeq env fuel evs s = some l →
      countFlips s l = 0 := by
  intro evs
  induction evs with
  | nil =>
    intro fuel s l hs h
    injection h with h2
    subst h2
    rfl
  | cons ev rest ih =>
    intro fuel s l hs h
    rw [runSeq] at h
    cases hc : cycle env fuel s ev [] with
    | none => rw [hc] at h; exact Option.noConfusion h
    | some r =>
      rw [hc] at h
      dsimp only at h
      cases hr : r.conn with
      | none =>
        rw [hr] at h
        injection h with h2
        subst h2
        rfl
      | some s2 =>
        rw [hr] at h
        dsimp only at h
        cases hrs : runSeq env fuel rest s2 with
        | none => rw [hrs] at h; exact Option.noConfusion h
        | some l2 =>
          rw [hrs] at h
          injection h with h2
          subst h2
          have hs2 : s2.connected = true :=
            cycle_connected_mono env hp fuel s ev [] r s2 hc hr hs
          simp [countFlips, hs, hs2, ih fuel s2 l2 hs2 hrs]

/-- Over any run of cycles, `CO_FL_CONNECTED` flips from clear to set at
most once. -/
lemma runSeq_flips_le_one (env : Env) (hp : connectedPreserving env) :
    ∀ evs fuel s l, runSeq env fuel evs s = some l → countFlips s l ≤ 1 := by
  intro evs
  induction evs with
  | nil =>
    intro fuel s l h
    injection h with h2
    subst h2
    exact Nat.zero_le 1
  | cons ev rest ih =>
    intro fuel s l h
    rw [runSeq] at h
    cases hc : cycle env fuel s ev [] with
    | none => rw [hc] at h; exact Option.noConfusion h
    | some r =>
      rw [hc] at h
      dsimp only at h
      cases hr : r.conn with
      | none =>
        rw [hr] at h
        injection h with h2
        subst h2
        exact Nat.zero_le 1
      | some s2 =>
        rw [hr] at h
        dsimp only at h
        cases hrs : runSeq env fuel rest s2 with
        | none => rw [hrs] at h; exact Option.noConfusion h
        | some l2 =>
          rw [hrs] at h
          injection h with h2
          subst h2
          by_cases hs : s.connected = true
          · have hz := runSeq_connected_all_zero env hp (ev :: rest) fuel s
              (s2 :: l2) hs
            rw [hz]
            · exact Nat.zero_le 1
            · rw [runSeq, hc]
              dsimp only
              rw [hr]
              dsimp only
              rw [hrs]
          · have hsf : s.connected = false := by
              cases hb : s.connected
              · rfl
              · exact absurd hb hs
            by_cases hs2 : s2.connected = true
            · have hz2 := runSeq_connected_all_zero env hp rest fuel s2 l2 hs2 hrs
              simp [countFlips, hsf, hs2, hz2]
            · have hs2f : s2.connected = false := by
                cases hb : s2.connected
                · rfl
                · exact absurd hb hs2
              have hrest := ih fuel s2 l2 hrs
              simp only [countFlips, hsf, hs2f]
              simpa using hrest

/-- C8: across every sequence of readiness cycles, `CO_FL_CONNECTED` is
set at most once.  Under the contract that no external collaborator
touches the bit: a completed cycle never clears it; the leave block raises
it from clear only when none of `WAIT_L4_CONN`, `WAIT_L6_CONN`,
`CONNECTED` is set after the notification step (lines 106-108); and over
any run of cycles the bit flips from clear to set at most once. -/
theorem connected_set_at_most_once (env : Env) (hp : connectedPreserving env) :
    (∀ fuel f ev tr r f', cycle env fuel f ev tr = some r → r.conn = some f' →
        f.connected = true → f'.connected = true)
    ∧ (∀ f ev tr f', (leavePhase env f ev tr).conn = some f' →
        f.connected = false → f'.connected = true →
        (!((afterNotify env f).wait_l4_conn || (afterNotify env f).wait_l6_conn
            || (afterNotify env f).connected)) = true)
    ∧ (∀ fuel evs s l, runSeq env fuel evs s = some l → countFlips s l ≤ 1) :=
  ⟨cycle_connected_mono env hp,
   fun f ev tr f' h hc hcc => leavePhase_connected_guard env hp f ev tr f' h hc hcc,
   fun fuel evs s l h => runSeq_flips_le_one env hp evs fuel s l h⟩

/-- Witness for `connected_set_at_most_once` at concrete runs with the
inert environment: the first cycle from a fresh connection sets the bit
with the guard clear, and a two-cycle run flips the bit exactly once. -/
theorem connected_set_at_most_once_witness :
    (!((afterNotify idEnv noFlags).wait_l4_conn || (afterNotify idEnv noFlags).wait_l6_conn
        || (afterNotify idEnv noFlags).connected)) = true
    ∧ countFlips noFlags
        [{ noFlags with connected := true }, { noFlags with connected := true }] ≤ 1 :=
  have hpId : connectedPreserving idEnv :=
    ⟨fun f => rfl, fun f => rfl, fun f => rfl, fun f => rfl, fun f => rfl,
     fun f => rfl, fun f => rfl, fun f => rfl, fun f => rfl⟩
  ⟨(connected_set_at_most_once idEnv hpId).2.1 noFlags noEv []
      { noFlags with connected := true } rfl rfl rfl,
   (connected_set_at_most_once idEnv hpId).2.2 1 [noEv, noEv] noFlags
      [{ noFlags with connected := true }, { noFlags with connected := true }] rfl⟩
